import Mathlib

/-!
# Shallow embedding of the Silentmode download-orchestration service

This file embeds, in Lean 4, the parts of the Silentmode command-queue /
presigned-URL file-download system that the verified properties talk about:

* the filename sanitizer (`sanitizeFilename`, from
  `src/server/src/utils/sanitizer.ts`);
* the server-side orchestration (`triggerDownload`, `handleUploadComplete`,
  `getDownloadStatus`, from `src/server/src/services/download.service.ts` —
  the in-memory variant — and the database-backed variant of the same service
  together with `DBService.updateDownloadStatus`);
* the status-read controller (`getDownloadStatus` in
  `src/server/src/controllers/download.controller.ts`);
* the client-side agent (`handleUploadCommand`, `uploadFileWithRetry`, from
  `src/client/src/services/uploader.service.ts`).

Modelling conventions:

* JavaScript strings are Lean `String`s; character-level processing in the
  sanitizer works on `List Char` (`String.data`).
* Timestamps (`new Date().toISOString()` / `CURRENT_TIMESTAMP`) are modelled
  as `Nat` milliseconds; ISO-8601 strings compare in the same order as the
  instants they denote, and every `new Date()` taken inside one service call
  is modelled as the single parameter `now` of that call.
* The in-memory `Map`/the SQLite table are modelled as functions
  `String → Option record`; mutation is functional update.
* Fallible external collaborators (object store, upload attempts) are
  injected as oracles returning `Except String α`, where `.error msg` models
  a thrown exception with message `msg`; `try/catch` in the source becomes a
  `match` on the oracle's answer.  All embedded functions are total, which
  models the fact that the embedded code paths never throw past their own
  `try/catch` boundary.
-/

/-! ## Filename sanitization (`src/server/src/utils/sanitizer.ts`)

The source:

```ts
export function sanitizeFilename(name: string | undefined | null): string {
  if (!name) return "file";
  const parts = name.split(/[\\/]/);
  const base = parts.pop() || "";
  if (!base) return "file";
  let s = base.replace(/\s+/g, "_");
  s = s.replace(/[^A-Za-z0-9._-]/g, "");
  s = s.toLowerCase();
  if (s.length > 128) { s = s.slice(0, 128); }
  if (!s) return "file";
  return s;
}
```
-/

/-- The two path separators of the `split(/[\\/]/)` step: `/` (code point 47)
and `\` (code point 92). -/
def isSep (c : Char) : Bool := c.toNat == 47 || c.toNat == 92

/-- JavaScript's `\s` character class (the characters matched by
`/\s/`): ASCII whitespace, NBSP, the Unicode space separators, the line
separators and the BOM. -/
def isJsWs (c : Char) : Bool :=
  c.toNat == 32 || (9 ≤ c.toNat && c.toNat ≤ 13) || c.toNat == 160 ||
  c.toNat == 0x1680 || (0x2000 ≤ c.toNat && c.toNat ≤ 0x200a) ||
  c.toNat == 0x2028 || c.toNat == 0x2029 || c.toNat == 0x202f ||
  c.toNat == 0x205f || c.toNat == 0x3000 || c.toNat == 0xfeff

/-- The character class `[A-Za-z0-9._-]` kept by the removal step
(`replace(/[^A-Za-z0-9._-]/g, "")`), expressed on code points:
`A`–`Z` is 65–90, `a`–`z` is 97–122, `0`–`9` is 48–57, `.` is 46,
`_` is 95, `-` is 45. -/
def allowedChar (c : Char) : Bool :=
  (65 ≤ c.toNat && c.toNat ≤ 90) || (97 ≤ c.toNat && c.toNat ≤ 122) ||
  (48 ≤ c.toNat && c.toNat ≤ 57) || c.toNat == 46 || c.toNat == 95 ||
  c.toNat == 45

/-- The character class `[a-z0-9._-]` of the sanitizer's output contract
(the spec's regex `^[a-z0-9._-]{1,128}$`, per character). -/
def outputChar (c : Char) : Bool :=
  (97 ≤ c.toNat && c.toNat ≤ 122) || (48 ≤ c.toNat && c.toNat ≤ 57) ||
  c.toNat == 46 || c.toNat == 95 || c.toNat == 45

/-- Per-character behaviour of JavaScript `String.prototype.toLowerCase` on
the ASCII range: `A`–`Z` maps to `a`–`z`, everything else in the sanitizer's
post-filter character set is already caseless and is left unchanged.  (The
sanitizer applies `toLowerCase` only after every character outside
`[A-Za-z0-9._-]` has been removed, so only this ASCII behaviour is ever
exercised.) -/
def jsToLower (c : Char) : Char :=
  if 65 ≤ c.toNat ∧ c.toNat ≤ 90 then Char.ofNat (c.toNat + 32) else c

/-- Model of `name.split(/[\\/]/); parts.pop()`: the (possibly empty) suffix of the
string after its last `/` or `\`; the whole string when it has no
separator. -/
def basenameOf (l : List Char) : List Char :=
  ((l.reverse.takeWhile fun c => !isSep c)).reverse

/-- Model of `s.replace(/\s+/g, "_")`: every maximal run of `\s` characters becomes a
single underscore.  The boolean argument records whether the previous
character was part of a whitespace run. -/
def wsCollapse : Bool → List Char → List Char
  | _, [] => []
  | inRun, c :: cs =>
    if isJsWs c then
      if inRun then wsCollapse true cs else '_' :: wsCollapse true cs
    else c :: wsCollapse false cs

/-- The fixed fallback `"file"` as a character list. -/
def fileFallback : List Char := ['f', 'i', 'l', 'e']

/-- The three reassignments of `s`: whitespace runs to `_`, removal of
characters outside `[A-Za-z0-9._-]`, lower-casing. -/
def restrictAndLower (base : List Char) : List Char :=
  ((wsCollapse false base).filter allowedChar).map jsToLower

/-- Model of `if (s.length > 128) { s = s.slice(0, 128); }`. -/
def truncate128 (s : List Char) : List Char :=
  if 128 < s.length then s.take 128 else s

/-- The body of `sanitizeFilename` after the initial `if (!name)` null/empty
check, on the character list of the input. -/
def sanitizeChars (l : List Char) : List Char :=
  if basenameOf l = [] then fileFallback
  else if truncate128 (restrictAndLower (basenameOf l)) = [] then fileFallback
  else truncate128 (restrictAndLower (basenameOf l))

/-- Function `sanitizeFilename` from `src/server/src/utils/sanitizer.ts`.  `none`
models both `undefined` and `null`; the empty string is also falsy in the
`if (!name)` guard. -/
def sanitizeFilename : Option String → String
  | none => "file"
  | some s => if s.data = [] then "file" else String.mk (sanitizeChars s.data)

/-! ## Data model (`src/server/src/models/download.model.ts`) -/

/-- The four states of a download record: `pending | uploaded | verified |
failed`. -/
inductive DStatus
  | pending
  | uploaded
  | verified
  | failed
  deriving DecidableEq

/-- Record `DownloadRecord`.  `presignedUrl`/`expiresAt` are optional in the model
interface; `size`/`sha256` are populated on upload completion; `error` holds
the failure reason.  (`meta` is an opaque passthrough and is omitted.)
Timestamps are `Nat` milliseconds (see the header). -/
structure DownloadRecord where
  downloadId : String
  clientId : String
  objectKey : String
  status : DStatus
  presignedUrl : Option String
  expiresAt : Option Nat
  size : Option Nat
  sha256 : Option String
  createdAt : Nat
  updatedAt : Nat
  error : Option String
  deriving DecidableEq

/-- The `upload` Command message published to `commands:<clientId>`. -/
structure UploadCommand where
  downloadId : String
  objectKey : String
  presignedUrl : String
  expiresAt : Nat
  deriving DecidableEq

/-- The two Event wire shapes published to `events:server`:
`upload_complete { downloadId, objectKey, size, sha256, status: "ok",
timestamp }` and `upload_failed { downloadId, objectKey, reason,
timestamp }`. -/
inductive UploadEvent
  | complete (downloadId objectKey : String) (size : Nat) (sha256 : String) (timestamp : Nat)
  | failed (downloadId objectKey reason : String) (timestamp : Nat)
  deriving DecidableEq

/-- The `transferId` a delivered Event refers to. -/
def UploadEvent.downloadId : UploadEvent → String
  | .complete d _ _ _ _ => d
  | .failed d _ _ _ => d

/-- The object-store collaborator (`storage.service.ts`), as an oracle:
`objectExists` is `verifyObjectExists` and `objectMetadata` is
`getObjectMetadata` (returning the reported `size`); `.error msg` models the
call throwing an exception whose message is `msg`, `.ok` a normal return
(`getObjectMetadata` returns `null` on `NotFound`). -/
structure StorageView where
  objectExists : String → Except String Bool
  objectMetadata : String → Except String (Option Nat)

/-! ## In-memory orchestrator
(`src/server/src/services/download.service.ts`) -/

/-- The in-memory `Map<string, DownloadRecord>` of `DownloadService`. -/
def Downloads : Type := String → Option DownloadRecord

/-- Model of `this.downloads.set(id, r)`. -/
def Downloads.set (m : Downloads) (id : String) (r : DownloadRecord) : Downloads :=
  fun k => if k = id then some r else m k

/-- Method `DownloadService.triggerDownload` (in-memory variant), successful path.
The generated `uuidv4()` and the presigned PUT URL issued by the storage
service are injected as `uuid` and `presignedUrl`; `expSec` is
`PRESIGNED_EXPIRES_SEC` (default 900).  Returns the record, the published
Command, and the updated map.  This variant takes no display name and its
object key is `silentmode-uploads/<clientId>/<downloadId>.bin`. -/
def triggerDownload (m : Downloads) (clientId uuid presignedUrl : String)
    (now expSec : Nat) : DownloadRecord × UploadCommand × Downloads :=
  let objectKey := "silentmode-uploads/" ++ clientId ++ "/" ++ uuid ++ ".bin"
  let expiresAt := now + expSec * 1000
  let record : DownloadRecord :=
    { downloadId := uuid, clientId := clientId, objectKey := objectKey,
      status := .pending, presignedUrl := some presignedUrl,
      expiresAt := some expiresAt, size := none, sha256 := none,
      createdAt := now, updatedAt := now, error := none }
  (record,
   { downloadId := uuid, objectKey := objectKey, presignedUrl := presignedUrl,
     expiresAt := expiresAt },
   m.set uuid record)

/-- Method `DownloadService.handleUploadComplete` (in-memory variant).  The record
is mutated in place in the source; here the final value of the record on
each control path is written back into the map.  The `catch` branch (any
exception from the storage calls) is the `.error` case of the oracles. -/
def handleUploadComplete (m : Downloads) (e : UploadEvent) (st : StorageView)
    (now : Nat) : Downloads :=
  match m e.downloadId with
  | none => m
  | some record =>
    match e with
    | .complete _ _ size sha _ =>
      let r1 : DownloadRecord :=
        { record with
          status := .uploaded,
          size := some size,
          sha256 := some sha,
          updatedAt := now }
      match st.objectExists record.objectKey with
      | .error msg =>
        m.set e.downloadId { r1 with status := .failed, error := some msg, updatedAt := now }
      | .ok false =>
        m.set e.downloadId
          { r1 with status := .failed, error := some "Object not found in storage after upload" }
      | .ok true =>
        match st.objectMetadata record.objectKey with
        | .error msg =>
          m.set e.downloadId { r1 with status := .failed, error := some msg, updatedAt := now }
        | .ok none =>
          m.set e.downloadId
            { r1 with status := .failed, error := some "Could not retrieve object metadata" }
        | .ok (some msize) =>
          if msize ≠ size then
            m.set e.downloadId
              { r1 with
                status := .failed,
                error := some ("Size mismatch: expected " ++ toString size ++ ", got "
                  ++ toString msize) }
          else
            m.set e.downloadId { r1 with status := .verified, updatedAt := now }
    | .failed _ _ reason _ =>
      m.set e.downloadId
        { record with status := .failed, error := some reason, updatedAt := now }

/-- Method `DownloadService.getDownloadStatus` (in-memory variant): returns the
stored record itself (which still carries `presignedUrl`), or `null`. -/
def getDownloadStatus (m : Downloads) (id : String) : Option DownloadRecord := m id

/-- The `getDownloadStatus` controller
(`src/server/src/controllers/download.controller.ts`): looks the record up
and answers with `publicRecord`, the record minus its `presignedUrl` field
(`const { presignedUrl, ...publicRecord } = record`).  Request validation and
HTTP codes are not modelled; the value is the response body on the 200
path. -/
def controllerGetDownloadStatus (m : Downloads) (id : String) : Option DownloadRecord :=
  (getDownloadStatus m id).map fun r => { r with presignedUrl := none }

/-! ## Database-backed orchestrator (the DB variant of
`download.service.ts`, with `db.service.ts`) -/

/-- A row of the `downloads` table.  The schema has no failure-reason
column: `download_id, client_id, object_key, original_filename,
content_type, size, sha256, status, presigned_expires_at, created_at,
updated_at`. -/
structure DbDownload where
  download_id : String
  client_id : String
  object_key : String
  original_filename : String
  content_type : Option String
  size : Option Nat
  sha256 : Option String
  status : DStatus
  presigned_expires_at : Option Nat
  created_at : Nat
  updated_at : Nat
  deriving DecidableEq

/-- The `downloads` table, keyed by `download_id`. -/
def DbMap : Type := String → Option DbDownload

/-- The optional `meta` argument of `updateDownloadStatus`: each present
field is added to the `SET` clause. -/
structure DbUpdateMeta where
  size : Option Nat
  sha256 : Option String
  content_type : Option String

/-- An optional `SET` column: keep the current value unless the update
carries a new one. -/
def sqlSet {α : Type} (new cur : Option α) : Option α :=
  match new with
  | some v => some v
  | none => cur

/-- Method `DBService.updateDownloadStatus`: `UPDATE downloads SET status = ?,
updated_at = CURRENT_TIMESTAMP [, size/sha256/content_type] WHERE
download_id = ?`.  A missing row is a no-op. -/
def updateDownloadStatus (db : DbMap) (downloadId : String) (status : DStatus)
    (meta : Option DbUpdateMeta) (now : Nat) : DbMap :=
  fun k =>
    if k = downloadId then
      (db downloadId).map fun r =>
        { r with
          status := status,
          updated_at := now,
          size := sqlSet (meta.bind fun mt => mt.size) r.size,
          sha256 := sqlSet (meta.bind fun mt => mt.sha256) r.sha256,
          content_type := sqlSet (meta.bind fun mt => mt.content_type) r.content_type }
    else db k

/-- Method `DownloadService.triggerDownload` (DB variant), successful path.  Object
key: `<clientId>/<downloadId>-<sanitizedFilename>`; the row's
`original_filename` is `originalFilename || sanitizedName`. -/
def triggerDownloadDb (db : DbMap) (clientId : String)
    (originalFilename : Option String) (uuid presignedUrl : String)
    (now expSec : Nat) : DownloadRecord × UploadCommand × DbMap :=
  let sanitizedName := sanitizeFilename originalFilename
  let objectKey := clientId ++ "/" ++ uuid ++ "-" ++ sanitizedName
  let expiresAt := now + expSec * 1000
  let row : DbDownload :=
    { download_id := uuid, client_id := clientId, object_key := objectKey,
      original_filename :=
        match originalFilename with
        | some s => if s = "" then sanitizedName else s
        | none => sanitizedName,
      content_type := none, size := none, sha256 := none, status := .pending,
      presigned_expires_at := some expiresAt, created_at := now, updated_at := now }
  let record : DownloadRecord :=
    { downloadId := uuid, clientId := clientId, objectKey := objectKey,
      status := .pending, presignedUrl := some presignedUrl,
      expiresAt := some expiresAt, size := none, sha256 := none,
      createdAt := now, updatedAt := now, error := none }
  (record,
   { downloadId := uuid, objectKey := objectKey, presignedUrl := presignedUrl,
     expiresAt := expiresAt },
   fun k => if k = uuid then some row else db k)

/-- Method `DownloadService.handleUploadComplete` (DB variant).  Every transition
goes through `updateDownloadStatus`; the failure branches store no reason
(the log line is the only place the reason appears).  The outer `catch` is
the `.error` case of the oracles. -/
def handleUploadCompleteDb (db : DbMap) (e : UploadEvent) (st : StorageView)
    (now : Nat) : DbMap :=
  match db e.downloadId with
  | none => db
  | some record =>
    match e with
    | .complete _ _ size sha _ =>
      let db1 := updateDownloadStatus db e.downloadId .uploaded
        (some { size := some size, sha256 := some sha,
                content_type := some "application/octet-stream" }) now
      match st.objectExists record.object_key with
      | .error _ => updateDownloadStatus db1 e.downloadId .failed none now
      | .ok false => updateDownloadStatus db1 e.downloadId .failed none now
      | .ok true =>
        match st.objectMetadata record.object_key with
        | .error _ => updateDownloadStatus db1 e.downloadId .failed none now
        | .ok none => updateDownloadStatus db1 e.downloadId .failed none now
        | .ok (some msize) =>
          if msize ≠ size then updateDownloadStatus db1 e.downloadId .failed none now
          else updateDownloadStatus db1 e.downloadId .verified none now
    | .failed _ _ _ _ =>
      updateDownloadStatus db e.downloadId .failed none now

/-- Method `DownloadService.getDownloadStatus` (DB variant): rebuilds a
`DownloadRecord` from the row; the returned object carries no
`presignedUrl` and no `expiresAt` field. -/
def getDownloadStatusDb (db : DbMap) (id : String) : Option DownloadRecord :=
  (db id).map fun r =>
    { downloadId := r.download_id, clientId := r.client_id,
      objectKey := r.object_key, status := r.status, presignedUrl := none,
      expiresAt := none, size := r.size, sha256 := r.sha256,
      createdAt := r.created_at, updatedAt := r.updated_at, error := none }

/-! ## Agent transfer runner
(`src/client/src/services/uploader.service.ts`) -/

/-- The Command as received by the client: any field may be missing
(`undefined`) or empty, both falsy in the `!field` guards.  `expiresAt` is
the parsed `new Date(expiresAt)` in milliseconds; `none` models a missing or
unparseable date (`NaN`, for which `expiresDate < new Date()` is false). -/
structure ClientCommand where
  downloadId : Option String
  objectKey : Option String
  presignedUrl : Option String
  expiresAt : Option Nat

/-- Model of `expiresDate < new Date()`: false for a missing/unparseable date. -/
def cmdExpired (expiresAt : Option Nat) (now : Nat) : Bool :=
  match expiresAt with
  | some t => decide (t < now)
  | none => false

/-- JavaScript falsiness of an optional string: `undefined`/`null`/`""`. -/
def falsyOpt : Option String → Bool
  | none => true
  | some s => s == ""

/-- Constant `this.maxRetries = 5`. -/
def maxRetries : Nat := 5

/-- Constant `this.baseDelay = 1000` (milliseconds). -/
def baseDelay : Nat := 1000

/-- The result of one successful `uploadFile`: the file's size and the
SHA-256 of exactly the streamed bytes. -/
structure FileResult where
  size : Nat
  sha256 : String
  deriving DecidableEq

/-- The `for (attempt = 1; attempt <= maxRetries; attempt++)` loop of
`uploadFileWithRetry`.  `attempts k` is the outcome of the `k`-th
`uploadFile` call (`.error msg` = it threw with message `msg`); the loop is
driven by `remaining = maxRetries - attempt + 1`.  Returns the overall
outcome, the list of backoff delays slept (in order), and the number of
attempts made. -/
def retryLoop (attempts : Nat → Except String FileResult) :
    Nat → Nat → Option String → Except String FileResult × List Nat × Nat
  | _, 0, lastErr =>
    (.error ("Upload failed after " ++ toString maxRetries ++ " attempts: "
      ++ lastErr.getD "undefined"), [], 0)
  | attempt, remaining + 1, _ =>
    match attempts attempt with
    | .ok r => (.ok r, [], 1)
    | .error msg =>
      let rest := retryLoop attempts (attempt + 1) remaining (some msg)
      if attempt < maxRetries then
        (rest.1, baseDelay * 2 ^ (attempt - 1) :: rest.2.1, rest.2.2 + 1)
      else
        (rest.1, rest.2.1, rest.2.2 + 1)

/-- Method `UploaderService.uploadFileWithRetry`. -/
def uploadFileWithRetry (attempts : Nat → Except String FileResult) :
    Except String FileResult × List Nat × Nat :=
  retryLoop attempts 1 maxRetries none

/-- What one `handleUploadCommand` call did: the in-flight set after the
call, the in-flight set while the transfer ran, the Events published, the
backoff delays slept, and the number of `uploadFile` attempts. -/
structure AgentOutcome where
  finalActive : Finset String
  duringActive : Finset String
  events : List UploadEvent
  delays : List Nat
  attemptsMade : Nat
  deriving DecidableEq

/-- Method `UploaderService.handleUploadCommand`.  Guards in source order:
structural validity, duplicate-in-flight, credential expiry; then
`activeDownloads.add`, the transfer with retry inside `try`, exactly one
Event (`upload_complete` or `upload_failed`), and
`activeDownloads.delete` in `finally`. -/
def handleUploadCommand (active : Finset String) (cmd : ClientCommand)
    (now : Nat) (attempts : Nat → Except String FileResult) : AgentOutcome :=
  if falsyOpt cmd.downloadId || falsyOpt cmd.objectKey || falsyOpt cmd.presignedUrl then
    { finalActive := active, duringActive := active, events := [], delays := [],
      attemptsMade := 0 }
  else
    let downloadId := cmd.downloadId.getD ""
    let objectKey := cmd.objectKey.getD ""
    if downloadId ∈ active then
      { finalActive := active, duringActive := active, events := [], delays := [],
        attemptsMade := 0 }
    else if cmdExpired cmd.expiresAt now then
      { finalActive := active, duringActive := active,
        events := [.failed downloadId objectKey "Presigned URL expired" now],
        delays := [], attemptsMade := 0 }
    else
      let during := insert downloadId active
      match uploadFileWithRetry attempts with
      | (.ok r, delays, n) =>
        { finalActive := during.erase downloadId, duringActive := during,
          events := [.complete downloadId objectKey r.size r.sha256 now],
          delays := delays, attemptsMade := n }
      | (.error msg, delays, n) =>
        { finalActive := during.erase downloadId, duringActive := during,
          events := [.failed downloadId objectKey msg now],
          delays := delays, attemptsMade := n }

/-! ## Concrete test fixtures used by counterexamples and witnesses -/

/-- Fixture: an in-memory record `"d1"` in a given state. -/
def sampleRecord (s : DStatus) : DownloadRecord :=
  { downloadId := "d1", clientId := "c1", objectKey := "k1", status := s,
    presignedUrl := some "put-url", expiresAt := some 900000, size := none,
    sha256 := none, createdAt := 0, updatedAt := 10, error := none }

/-- Fixture: a map holding only `sampleRecord s` under `"d1"`. -/
def sampleMap (s : DStatus) : Downloads :=
  fun k => if k = "d1" then some (sampleRecord s) else none

/-- Fixture: a DB row `"d1"` in the `pending` state. -/
def sampleRow : DbDownload :=
  { download_id := "d1", client_id := "c1", object_key := "k1",
    original_filename := "f", content_type := none, size := none,
    sha256 := none, status := .pending, presigned_expires_at := some 900000,
    created_at := 0, updated_at := 0 }

/-- Fixture: a table holding only `sampleRow` under `"d1"`. -/
def sampleDb : DbMap := fun k => if k = "d1" then some sampleRow else none

/-- Fixture: a store where the object exists and reports size `n`. -/
def storeWithSize (n : Nat) : StorageView :=
  { objectExists := fun _ => .ok true, objectMetadata := fun _ => .ok (some n) }

/-! ### Character-level lemmas for the sanitizer -/

theorem charToNat_ofNat_of_lt (n : Nat) (h : n < 55296) : (Char.ofNat n).toNat = n := by
  simp only [Char.ofNat, Char.ofNatAux, Char.toNat]
  rw [dif_pos (Or.inl h)]
  rfl

theorem toNat_jsToLower_of_upper {c : Char} (h1 : 65 ≤ c.toNat) (h2 : c.toNat ≤ 90) :
    (jsToLower c).toNat = c.toNat + 32 := by
  unfold jsToLower
  rw [if_pos ⟨h1, h2⟩, charToNat_ofNat_of_lt _ (by omega)]

theorem jsToLower_eq_of_not_upper {c : Char} (h : ¬(65 ≤ c.toNat ∧ c.toNat ≤ 90)) :
    jsToLower c = c := if_neg h

/-- Every character kept by the `[A-Za-z0-9._-]` filter lands in the output
class `[a-z0-9._-]` after lower-casing. -/
theorem outputChar_jsToLower {c : Char} (h : allowedChar c = true) :
    outputChar (jsToLower c) = true := by
  simp only [allowedChar, Bool.or_eq_true, Bool.and_eq_true, decide_eq_true_eq,
    beq_iff_eq] at h
  by_cases hu : 65 ≤ c.toNat ∧ c.toNat ≤ 90
  · have ht := toNat_jsToLower_of_upper hu.1 hu.2
    simp only [outputChar, Bool.or_eq_true, Bool.and_eq_true, decide_eq_true_eq,
      beq_iff_eq, ht]
    omega
  · rw [jsToLower_eq_of_not_upper hu]
    simp only [outputChar, Bool.or_eq_true, Bool.and_eq_true, decide_eq_true_eq,
      beq_iff_eq]
    omega

theorem outputChar_not_sep {c : Char} (h : outputChar c = true) : isSep c = false := by
  simp only [outputChar, Bool.or_eq_true, Bool.and_eq_true, decide_eq_true_eq,
    beq_iff_eq] at h
  simp only [isSep, Bool.or_eq_false_iff, beq_eq_false_iff_ne, ne_eq]
  omega

theorem outputChar_not_ws {c : Char} (h : outputChar c = true) : isJsWs c = false := by
  simp only [outputChar, Bool.or_eq_true, Bool.and_eq_true, decide_eq_true_eq,
    beq_iff_eq] at h
  simp only [isJsWs, Bool.or_eq_false_iff, Bool.and_eq_false_iff, beq_eq_false_iff_ne,
    ne_eq, decide_eq_false_iff_not, not_le]
  omega

theorem outputChar_allowed {c : Char} (h : outputChar c = true) : allowedChar c = true := by
  simp only [outputChar, Bool.or_eq_true, Bool.and_eq_true, decide_eq_true_eq,
    beq_iff_eq] at h
  simp only [allowedChar, Bool.or_eq_true, Bool.and_eq_true, decide_eq_true_eq,
    beq_iff_eq]
  omega

theorem jsToLower_eq_of_output {c : Char} (h : outputChar c = true) : jsToLower c = c := by
  simp only [outputChar, Bool.or_eq_true, Bool.and_eq_true, decide_eq_true_eq,
    beq_iff_eq] at h
  exact jsToLower_eq_of_not_upper (by omega)

/-! ### Structural lemmas for the sanitizer -/

theorem basenameOf_eq_self {l : List Char} (h : ∀ c ∈ l, isSep c = false) :
    basenameOf l = l := by
  unfold basenameOf
  rw [List.takeWhile_eq_self_iff.mpr, List.reverse_reverse]
  intro c hc
  simp [h c (List.mem_reverse.mp hc)]

theorem wsCollapse_eq_self {l : List Char} (h : ∀ c ∈ l, isJsWs c = false) :
    ∀ b, wsCollapse b l = l := by
  induction l with
  | nil => intro b; rfl
  | cons c cs ih =>
    intro b
    unfold wsCollapse
    rw [if_neg (by simp [h c (by simp)])]
    rw [ih (fun x hx => h x (by simp [hx]))]

theorem map_jsToLower_eq_self {l : List Char} (h : ∀ c ∈ l, outputChar c = true) :
    l.map jsToLower = l := by
  induction l with
  | nil => rfl
  | cons c cs ih =>
    simp only [List.map_cons, jsToLower_eq_of_output (h c (by simp)),
      ih (fun x hx => h x (by simp [hx])), List.cons.injEq, and_self]

theorem fileFallback_props :
    fileFallback ≠ [] ∧ fileFallback.length ≤ 128 ∧
    ∀ c ∈ fileFallback, outputChar c = true := by
  refine ⟨by decide, by decide, ?_⟩
  intro c hc
  simp only [fileFallback, List.mem_cons, List.not_mem_nil, or_false] at hc
  rcases hc with rfl | rfl | rfl | rfl <;> decide

theorem mem_restrictAndLower {c : Char} {base : List Char}
    (h : c ∈ restrictAndLower base) : outputChar c = true := by
  obtain ⟨c', hc', rfl⟩ := List.mem_map.mp h
  exact outputChar_jsToLower (List.of_mem_filter hc')

theorem truncate128_length (s : List Char) : (truncate128 s).length ≤ 128 := by
  unfold truncate128
  split
  · simp
  · omega

theorem truncate128_subset {c : Char} {s : List Char} (h : c ∈ truncate128 s) : c ∈ s := by
  unfold truncate128 at h
  split at h
  · exact List.take_subset _ _ h
  · exact h

/-- Output contract of the sanitizer body: nonempty, at most 128 characters,
all of them in `[a-z0-9._-]`. -/
theorem sanitizeChars_props (l : List Char) :
    sanitizeChars l ≠ [] ∧ (sanitizeChars l).length ≤ 128 ∧
    ∀ c ∈ sanitizeChars l, outputChar c = true := by
  unfold sanitizeChars
  split
  · exact fileFallback_props
  · split
    · exact fileFallback_props
    · next hne =>
      exact ⟨hne, truncate128_length _,
        fun c hc => mem_restrictAndLower (truncate128_subset hc)⟩

/-- The sanitizer body is the identity on a nonempty list of at most 128
output-class characters. -/
theorem sanitizeChars_fixed {l : List Char} (h1 : l ≠ []) (h2 : l.length ≤ 128)
    (h3 : ∀ c ∈ l, outputChar c = true) : sanitizeChars l = l := by
  have hb : basenameOf l = l := basenameOf_eq_self (fun c hc => outputChar_not_sep (h3 c hc))
  have hr : restrictAndLower l = l := by
    unfold restrictAndLower
    rw [wsCollapse_eq_self (fun c hc => outputChar_not_ws (h3 c hc)) false,
      List.filter_eq_self.mpr (fun c hc => outputChar_allowed (h3 c hc)),
      map_jsToLower_eq_self h3]
  have ht : truncate128 l = l := by unfold truncate128; rw [if_neg (by omega)]
  unfold sanitizeChars
  rw [hb, hr, ht, if_neg h1, if_neg h1]

/-- Projection round-trip: `String.mk` undoes `String.data`. -/
theorem stringMk_data (s : String) : String.mk s.data = s := rfl

/-- C3: for every input (including `undefined`/`null`, hostile paths, and
strings of only disallowed characters) `sanitizeFilename` returns, without
error, a string of 1 to 128 characters drawn from `[a-z0-9._-]` — i.e. a
match of `^[a-z0-9._-]{1,128}$`; the fallback `"file"` also matches.
Totality is witnessed by `sanitizeFilename` being a total function. -/
theorem sanitizeFilename_safe (name : Option String) :
    1 ≤ (sanitizeFilename name).length ∧ (sanitizeFilename name).length ≤ 128 ∧
    ∀ c ∈ (sanitizeFilename name).data, outputChar c = true := by
  cases name with
  | none =>
    exact ⟨by decide, by decide, fun c hc => fileFallback_props.2.2 c hc⟩
  | some s =>
    simp only [sanitizeFilename]
    split
    · exact ⟨by decide, by decide, fun c hc => fileFallback_props.2.2 c hc⟩
    · obtain ⟨h1, h2, h3⟩ := sanitizeChars_props s.data
      refine ⟨?_, h2, h3⟩
      show 1 ≤ (sanitizeChars s.data).length
      have := List.length_pos.mpr h1
      omega

/-- C4: `sanitizeFilename` is idempotent — for every input `x`,
`sanitizeFilename (sanitizeFilename x) = sanitizeFilename x`. -/
theorem sanitizeFilename_idem (name : Option String) :
    sanitizeFilename (some (sanitizeFilename name)) = sanitizeFilename name := by
  cases name with
  | none => decide
  | some s =>
    by_cases he : s.data = []
    · simp only [sanitizeFilename, if_pos he]
      decide
    · simp only [sanitizeFilename, if_neg he]
      obtain ⟨h1, h2, h3⟩ := sanitizeChars_props s.data
      rw [if_neg h1, sanitizeChars_fixed h1 h2 h3]

theorem takeWhile_append_all {p : Char → Bool} {l1 : List Char} (b : Char)
    (l2 : List Char) (h1 : ∀ c ∈ l1, p c = true) (hb : p b = false) :
    (l1 ++ b :: l2).takeWhile p = l1 := by
  induction l1 with
  | nil => simp [List.takeWhile_cons, hb]
  | cons c cs ih =>
    simp only [List.cons_append, List.takeWhile_cons, h1 c (by simp), if_true]
    rw [ih (fun x hx => h1 x (by simp [hx]))]

theorem basenameOf_append_sep (p q : List Char) (hq : ∀ c ∈ q, isSep c = false) :
    basenameOf (p ++ '/' :: q) = q := by
  unfold basenameOf
  have hrev : (p ++ '/' :: q).reverse = q.reverse ++ '/' :: p.reverse := by
    simp
  rw [hrev, takeWhile_append_all '/' p.reverse
    (fun c hc => by simp [hq c (List.mem_reverse.mp hc)]) (by decide),
    List.reverse_reverse]

theorem downloadsSet_map_objectKey {m : Downloads} {id k : String}
    {r r' : DownloadRecord} (hm : m id = some r) (hk : r'.objectKey = r.objectKey) :
    ((m.set id r') k).map (fun x => x.objectKey) = (m k).map (fun x => x.objectKey) := by
  unfold Downloads.set
  split
  · next h => subst h; rw [hm]; simp [hk]
  · rfl

theorem handleUploadComplete_known (m : Downloads) (e : UploadEvent)
    (st : StorageView) (now : Nat) (r : DownloadRecord)
    (hm : m e.downloadId = some r) :
    ∃ r', handleUploadComplete m e st now = m.set e.downloadId r' ∧
      r'.updatedAt = now ∧ r'.objectKey = r.objectKey := by
  cases e with
  | complete d key size sha ts =>
    unfold handleUploadComplete
    rw [hm]
    dsimp only
    cases hex : st.objectExists r.objectKey with
    | error msg => exact ⟨_, rfl, rfl, rfl⟩
    | ok b =>
      cases b with
      | false => exact ⟨_, rfl, rfl, rfl⟩
      | true =>
        cases hmd : st.objectMetadata r.objectKey with
        | error msg => exact ⟨_, rfl, rfl, rfl⟩
        | ok mo =>
          cases mo with
          | none => exact ⟨_, rfl, rfl, rfl⟩
          | some msize =>
            dsimp only
            by_cases hsz : msize ≠ size
            · rw [if_pos hsz]; exact ⟨_, rfl, rfl, rfl⟩
            · rw [if_neg hsz]; exact ⟨_, rfl, rfl, rfl⟩
  | failed d key reason ts =>
    unfold handleUploadComplete
    rw [hm]
    exact ⟨_, rfl, rfl, rfl⟩

theorem handleUploadComplete_objectKey (m : Downloads) (e : UploadEvent)
    (st : StorageView) (now : Nat) (k : String) :
    ((handleUploadComplete m e st now) k).map (fun x => x.objectKey)
      = (m k).map (fun x => x.objectKey) := by
  cases hm : m e.downloadId with
  | none => unfold handleUploadComplete; rw [hm]
  | some r =>
    obtain ⟨r', heq, _, hkey⟩ := handleUploadComplete_known m e st now r hm
    rw [heq]
    exact downloadsSet_map_objectKey hm hkey

theorem updateDownloadStatus_objectKey (db : DbMap) (id : String) (s : DStatus)
    (meta : Option DbUpdateMeta) (now : Nat) (k : String) :
    ((updateDownloadStatus db id s meta now) k).map (fun x => x.object_key)
      = (db k).map (fun x => x.object_key) := by
  unfold updateDownloadStatus
  split
  · next h => subst h; cases db k <;> rfl
  · rfl

theorem handleUploadCompleteDb_objectKey (db : DbMap) (e : UploadEvent)
    (st : StorageView) (now : Nat) (k : String) :
    ((handleUploadCompleteDb db e st now) k).map (fun x => x.object_key)
      = (db k).map (fun x => x.object_key) := by
  cases e with
  | complete d key size sha ts =>
    unfold handleUploadCompleteDb
    cases hm : db (UploadEvent.complete d key size sha ts).downloadId with
    | none => rfl
    | some record =>
      dsimp only
      cases st.objectExists record.object_key with
      | error msg => rw [updateDownloadStatus_objectKey, updateDownloadStatus_objectKey]
      | ok b =>
        cases b with
        | false => rw [updateDownloadStatus_objectKey, updateDownloadStatus_objectKey]
        | true =>
          dsimp only
          cases st.objectMetadata record.object_key with
          | error msg => rw [updateDownloadStatus_objectKey, updateDownloadStatus_objectKey]
          | ok mo =>
            cases mo with
            | none => rw [updateDownloadStatus_objectKey, updateDownloadStatus_objectKey]
            | some msize =>
              dsimp only
              by_cases hsz : msize ≠ size
              · rw [if_pos hsz, updateDownloadStatus_objectKey, updateDownloadStatus_objectKey]
              · rw [if_neg hsz, updateDownloadStatus_objectKey, updateDownloadStatus_objectKey]
  | failed d key reason ts =>
    unfold handleUploadCompleteDb
    cases hm : db (UploadEvent.failed d key reason ts).downloadId with
    | none => rfl
    | some record =>
      dsimp only
      rw [updateDownloadStatus_objectKey]

/-- C2 counterexample: the in-memory `triggerDownload` gives the created
record the objectKey `silentmode-uploads/<clientId>/<downloadId>.bin`, which
is not of the claimed form `<clientId>/<downloadId>-<sanitizedName>` for any
sanitized name (it does not even start with the client id). -/
theorem triggerDownload_objectKey_cex :
    (triggerDownload (fun _ => none) "agent-1" "d1" "u" 0 900).1.objectKey
      = "silentmode-uploads/agent-1/d1.bin" ∧
    ∀ s : String,
      (triggerDownload (fun _ => none) "agent-1" "d1" "u" 0 900).1.objectKey
        ≠ "agent-1/d1-" ++ s := by
  refine ⟨rfl, ?_⟩
  intro s h
  have h1 : ((triggerDownload (fun _ => none) "agent-1" "d1" "u" 0 900).1.objectKey).data.head?
      = some 's' := rfl
  rw [h] at h1
  have h2 : ("agent-1/d1-" ++ s).data.head? = some 'a' := rfl
  exact absurd (Option.some.inj (h2.symm.trans h1)) (by decide)

/-- C2 amended: the DB-variant `triggerDownload` computes the objectKey
`clientId / downloadId-sanitizedName` (both in the returned record and in
the created row); the in-memory variant instead computes
`silentmode-uploads/clientId/downloadId.bin`; and in both variants no later
event-handling operation ever rewrites the objectKey of an existing
record. -/
theorem objectKey_format_and_immutable :
    (∀ (db : DbMap) (clientId : String) (name : Option String)
        (uuid url : String) (now expSec : Nat),
      ((triggerDownloadDb db clientId name uuid url now expSec).1.objectKey
        = clientId ++ "/" ++ uuid ++ "-" ++ sanitizeFilename name) ∧
      (((triggerDownloadDb db clientId name uuid url now expSec).2.2 uuid).map
          (fun r => r.object_key)
        = some (clientId ++ "/" ++ uuid ++ "-" ++ sanitizeFilename name))) ∧
    (∀ (m : Downloads) (clientId uuid url : String) (now expSec : Nat),
      (triggerDownload m clientId uuid url now expSec).1.objectKey
        = "silentmode-uploads/" ++ clientId ++ "/" ++ uuid ++ ".bin") ∧
    (∀ (m : Downloads) (e : UploadEvent) (st : StorageView) (now : Nat) (k : String),
      ((handleUploadComplete m e st now) k).map (fun x => x.objectKey)
        = (m k).map (fun x => x.objectKey)) ∧
    (∀ (db : DbMap) (e : UploadEvent) (st : StorageView) (now : Nat) (k : String),
      ((handleUploadCompleteDb db e st now) k).map (fun x => x.object_key)
        = (db k).map (fun x => x.object_key)) := by
  refine ⟨?_, ?_, ?_, ?_⟩
  · intro db clientId name uuid url now expSec
    constructor
    · rfl
    · simp [triggerDownloadDb]
  · intro m clientId uuid url now expSec
    rfl
  · exact handleUploadComplete_objectKey
  · exact handleUploadCompleteDb_objectKey

/-- C10: `sanitizeFilename` maps `"."` to `"."` and `".."` to `".."`
unchanged (dots are in the allowed character set), and any path whose final
`/`-component is `".."` (such as `"foo/.."`) sanitizes to `".."`; the
DB-variant trigger then embeds this relative-path component into the
objectKey (`agent-1/d1-..`). -/
theorem sanitize_dot_survives :
    sanitizeFilename (some ".") = "." ∧
    sanitizeFilename (some "..") = ".." ∧
    sanitizeFilename (some "foo/..") = ".." ∧
    (∀ p : List Char, sanitizeChars (p ++ '/' :: ['.', '.']) = ['.', '.']) ∧
    (triggerDownloadDb (fun _ => none) "agent-1" (some "..") "d1" "u" 0 900).1.objectKey
      = "agent-1/d1-.." := by
  refine ⟨by decide, by decide, by decide, ?_, by decide⟩
  intro p
  have hq : ∀ c ∈ ['.', '.'], isSep c = false := by decide
  have hb := basenameOf_append_sep p ['.', '.'] hq
  unfold sanitizeChars
  rw [hb]
  decide

theorem handleUploadComplete_unknown {m : Downloads} {e : UploadEvent}
    {st : StorageView} {now : Nat} (hm : m e.downloadId = none) :
    handleUploadComplete m e st now = m := by
  unfold handleUploadComplete
  rw [hm]

theorem handleUploadCompleteDb_unknown {db : DbMap} {e : UploadEvent}
    {st : StorageView} {now : Nat} (hdb : db e.downloadId = none) :
    handleUploadCompleteDb db e st now = db := by
  unfold handleUploadCompleteDb
  rw [hdb]

/-- C1 counterexample: `handleUploadComplete` has no terminal-state guard.
A record already in the terminal state `failed` that receives a (redelivered
or out-of-order) `upload_complete` event whose size matches the store is
re-processed and ends `verified` — a state change on a terminal record,
contradicting the claim that terminal records are left untouched. -/
theorem handleUploadComplete_terminal_cex :
    ((sampleMap .failed) "d1").map (fun x => x.status) = some DStatus.failed ∧
    ((handleUploadComplete (sampleMap .failed) (.complete "d1" "k1" 10 "h2" 99)
        (storeWithSize 10) 100) "d1").map (fun x => x.status)
      = some DStatus.verified := by
  constructor
  · decide
  · decide

/-- C1 amended: for every delivered Event, an unknown `transferId` is
discarded with no state change and no exception (both the in-memory and the
DB variant return with the store untouched); but a record in a terminal
state is NOT protected: the event is re-processed through the normal
transition path, so a terminal record (e.g. `failed`) whose object passes
verification transitions to `verified`. -/
theorem onEvent_unknown_noop (m : Downloads) (db : DbMap) (e : UploadEvent)
    (st : StorageView) (now : Nat) :
    (m e.downloadId = none → ∀ k, handleUploadComplete m e st now k = m k) ∧
    (db e.downloadId = none → ∀ k, handleUploadCompleteDb db e st now k = db k) ∧
    (∀ (d key sha : String) (size ts : Nat) (r : DownloadRecord),
      m d = some r →
      st.objectExists r.objectKey = Except.ok true →
      st.objectMetadata r.objectKey = Except.ok (some size) →
      ((handleUploadComplete m (.complete d key size sha ts) st now) d).map
        (fun x => x.status) = some DStatus.verified) := by
  refine ⟨?_, ?_, ?_⟩
  · intro hm k; rw [handleUploadComplete_unknown hm]
  · intro hdb k; rw [handleUploadCompleteDb_unknown hdb]
  · intro d key sha size ts r hm hex hmd
    unfold handleUploadComplete
    simp only [UploadEvent.downloadId]
    rw [hm]
    dsimp only
    rw [hex]
    dsimp only
    rw [hmd]
    dsimp only
    rw [if_neg (by omega : ¬size ≠ size)]
    unfold Downloads.set
    rw [if_pos rfl]
    rfl

/-- Witness for C1: instantiates the amended theorem on an empty store
(unknown id, both variants) and on a map holding a terminal `verified`
record that is re-verified. -/
theorem onEvent_unknown_noop_witness :
    handleUploadComplete (fun _ => none) (.failed "dx" "k" "oops" 1)
        (storeWithSize 3) 5 "dx" = none ∧
    handleUploadCompleteDb (fun _ => none) (.failed "dx" "k" "oops" 1)
        (storeWithSize 3) 5 "dx" = none ∧
    ((handleUploadComplete (sampleMap .verified) (.complete "d1" "k1" 7 "h7" 99)
        (storeWithSize 7) 100) "d1").map (fun x => x.status)
      = some DStatus.verified :=
  ⟨(onEvent_unknown_noop (fun _ => none) (fun _ => none) (.failed "dx" "k" "oops" 1)
      (storeWithSize 3) 5).1 rfl "dx",
   (onEvent_unknown_noop (fun _ => none) (fun _ => none) (.failed "dx" "k" "oops" 1)
      (storeWithSize 3) 5).2.1 rfl "dx",
   (onEvent_unknown_noop (sampleMap .verified) (fun _ => none)
      (.failed "dx" "k" "oops" 1) (storeWithSize 7) 100).2.2
      "d1" "k1" "h7" 7 99 (sampleRecord .verified) (by decide) rfl rfl⟩

/-- C7 counterexample: in the DB variant, a size mismatch transitions the
record to `failed` but records no failure reason: the rows produced when the
store reports size 9 and when it reports size 8 (against a reported size of
10) are identical, so nothing in the record describes the expected versus
actual sizes (the schema has no failure-reason column; the reason is only
logged). -/
theorem sizeMismatch_no_reason_cex :
    (handleUploadCompleteDb sampleDb (.complete "d1" "k1" 10 "h" 99)
        (storeWithSize 9) 100) "d1"
      = (handleUploadCompleteDb sampleDb (.complete "d1" "k1" 10 "h" 99)
        (storeWithSize 8) 100) "d1" ∧
    ((handleUploadCompleteDb sampleDb (.complete "d1" "k1" 10 "h" 99)
        (storeWithSize 9) 100) "d1").map (fun x => x.status) = some DStatus.failed := by
  constructor
  · decide
  · decide

/-- C7 amended: on a `complete` Event for a known record, when the store's
reported metadata size differs from the Event's size, both variants
transition the record to `failed`; the in-memory variant records the reason
`Size mismatch: expected <event.size>, got <metadata.size>`, while the DB
variant records no reason. -/
theorem verification_size_mismatch
    (m : Downloads) (db : DbMap) (st : StorageView) (now ts size msize : Nat)
    (d key sha : String) (r : DownloadRecord) (row : DbDownload)
    (hm : m d = some r)
    (hex : st.objectExists r.objectKey = Except.ok true)
    (hmd : st.objectMetadata r.objectKey = Except.ok (some msize))
    (hne : msize ≠ size)
    (hdb : db d = some row)
    (hex2 : st.objectExists row.object_key = Except.ok true)
    (hmd2 : st.objectMetadata row.object_key = Except.ok (some msize)) :
    (handleUploadComplete m (.complete d key size sha ts) st now) d
      = some { r with
          status := .failed, size := some size, sha256 := some sha,
          updatedAt := now,
          error := some ("Size mismatch: expected " ++ toString size ++ ", got "
            ++ toString msize) } ∧
    (handleUploadCompleteDb db (.complete d key size sha ts) st now) d
      = some { row with
          status := .failed, updated_at := now, size := some size,
          sha256 := some sha, content_type := some "application/octet-stream" } := by
  constructor
  · unfold handleUploadComplete
    simp only [UploadEvent.downloadId]
    rw [hm]
    dsimp only
    rw [hex]
    dsimp only
    rw [hmd]
    dsimp only
    rw [if_pos hne]
    unfold Downloads.set
    rw [if_pos rfl]
  · unfold handleUploadCompleteDb
    simp only [UploadEvent.downloadId]
    rw [hdb]
    dsimp only
    rw [hex2]
    dsimp only
    rw [hmd2]
    dsimp only
    rw [if_pos hne]
    unfold updateDownloadStatus
    rw [if_pos rfl, if_pos rfl, hdb]
    rfl

/-- Witness for C7: the amended theorem applied to a pending record with
reported size 10 against a store that reports size 9. -/
theorem verification_size_mismatch_witness :
    (handleUploadComplete (sampleMap .pending) (.complete "d1" "k1" 10 "h" 99)
        (storeWithSize 9) 100) "d1"
      = some { sampleRecord .pending with
          status := .failed, size := some 10, sha256 := some "h",
          updatedAt := 100, error := some "Size mismatch: expected 10, got 9" } ∧
    (handleUploadCompleteDb sampleDb (.complete "d1" "k1" 10 "h" 99)
        (storeWithSize 9) 100) "d1"
      = some { sampleRow with
          status := .failed, updated_at := 100, size := some 10,
          sha256 := some "h", content_type := some "application/octet-stream" } := by
  have h := verification_size_mismatch (sampleMap .pending) sampleDb
    (storeWithSize 9) 100 99 10 9 "d1" "k1" "h" (sampleRecord .pending) sampleRow
    (by decide) rfl rfl (by decide) (by decide) rfl rfl
  exact ⟨h.1, h.2⟩

/-- C8: every operation of `handleUploadComplete` that changes a record's
status leaves `updatedAt` equal to the call's clock `now`, so under a
monotone clock (`now` at least the pre-state's `updatedAt`) `updatedAt` is
monotonically non-decreasing; and the DB variant's `updateDownloadStatus`
sets `updated_at` to the transition time on every update. -/
theorem updatedAt_bump_monotone (m : Downloads) (e : UploadEvent)
    (st : StorageView) (now : Nat) :
    (∀ (k : String) (r r' : DownloadRecord),
      m k = some r → handleUploadComplete m e st now k = some r' →
      (r'.status ≠ r.status → r'.updatedAt = now) ∧
      (r.updatedAt ≤ now → r.updatedAt ≤ r'.updatedAt)) ∧
    (∀ (db : DbMap) (id : String) (s : DStatus) (meta : Option DbUpdateMeta)
        (now' : Nat) (row : DbDownload), db id = some row →
      ((updateDownloadStatus db id s meta now') id).map (fun x => x.updated_at)
        = some now') := by
  constructor
  · intro k r r' hm hpost
    cases hm0 : m e.downloadId with
    | none =>
      rw [handleUploadComplete_unknown hm0, hm] at hpost
      obtain rfl := Option.some.inj hpost
      exact ⟨fun hne => absurd rfl hne, fun h => Nat.le_refl _⟩
    | some r0 =>
      obtain ⟨r1, heq, hupd, _⟩ := handleUploadComplete_known m e st now r0 hm0
      rw [heq] at hpost
      unfold Downloads.set at hpost
      by_cases hk : k = e.downloadId
      · rw [if_pos hk] at hpost
        obtain rfl := Option.some.inj hpost
        exact ⟨fun _ => hupd, fun h => by omega⟩
      · rw [if_neg hk, hm] at hpost
        obtain rfl := Option.some.inj hpost
        exact ⟨fun hne => absurd rfl hne, fun h => Nat.le_refl _⟩
  · intro db id s meta now' row hrow
    unfold updateDownloadStatus
    rw [if_pos rfl, hrow]
    rfl

/-- Witness for C8: a `pending` record transitioned to `failed` at time 100
has `updatedAt = 100 ≥ 10`, and a DB status update at time 77 stamps
`updated_at = 77`. -/
theorem updatedAt_bump_monotone_witness :
    ({ sampleRecord .pending with
       status := .failed,
       error := some "oops",
       updatedAt := 100 } : DownloadRecord).updatedAt = 100 ∧
    (sampleRecord .pending).updatedAt
      ≤ ({ sampleRecord .pending with
           status := .failed,
           error := some "oops",
           updatedAt := 100 } : DownloadRecord).updatedAt ∧
    ((updateDownloadStatus sampleDb "d1" .failed none 77) "d1").map
      (fun x => x.updated_at) = some 77 := by
  have h := (updatedAt_bump_monotone (sampleMap .pending)
    (.failed "d1" "k1" "oops" 99) (storeWithSize 9) 100).1 "d1"
    (sampleRecord .pending)
    { sampleRecord .pending with
      status := .failed,
      error := some "oops",
      updatedAt := 100 }
    (by decide) (by decide)
  exact ⟨h.1 (by decide), h.2 (by decide),
    (updatedAt_bump_monotone (sampleMap .pending) (.failed "d1" "k1" "oops" 99)
      (storeWithSize 9) 100).2 sampleDb "d1" .failed none 77 sampleRow (by decide)⟩

/-- C9: the status read exposed to callers never includes the write
credential: every record returned by the status controller (which strips
`presignedUrl` from the stored record) and by the DB variant's
`getDownloadStatus` (which never copies it out of the row) carries
`presignedUrl = none`, in every state — while the rest of the response (for
example the status) still reflects the stored record. -/
theorem getStatus_never_exposes_credential (m : Downloads) (db : DbMap) (id : String) :
    (∀ r, controllerGetDownloadStatus m id = some r → r.presignedUrl = none) ∧
    (∀ r, getDownloadStatusDb db id = some r → r.presignedUrl = none) ∧
    (controllerGetDownloadStatus m id).map (fun x => x.status)
      = (getDownloadStatus m id).map (fun x => x.status) := by
  refine ⟨?_, ?_, ?_⟩
  · intro r hr
    unfold controllerGetDownloadStatus getDownloadStatus at hr
    cases hm : m id with
    | none => rw [hm] at hr; exact absurd hr (by simp)
    | some r0 =>
      rw [hm] at hr
      obtain rfl := Option.some.inj hr
      rfl
  · intro r hr
    unfold getDownloadStatusDb at hr
    cases hdb : db id with
    | none => rw [hdb] at hr; exact absurd hr (by simp)
    | some r0 =>
      rw [hdb] at hr
      obtain rfl := Option.some.inj hr
      rfl
  · unfold controllerGetDownloadStatus getDownloadStatus
    cases m id <;> rfl

/-- Witness for C9: a stored record whose `presignedUrl` is a live secret
yields a controller response with `presignedUrl = none` and the true
status. -/
theorem getStatus_never_exposes_credential_witness :
    (({ sampleRecord .pending with presignedUrl := none } : DownloadRecord).presignedUrl
      = none) ∧
    (controllerGetDownloadStatus (sampleMap .pending) "d1").map (fun x => x.status)
      = (getDownloadStatus (sampleMap .pending) "d1").map (fun x => x.status) :=
  ⟨(getStatus_never_exposes_credential (sampleMap .pending) (fun _ => none) "d1").1
      { sampleRecord .pending with presignedUrl := none } (by decide),
   (getStatus_never_exposes_credential (sampleMap .pending) (fun _ => none) "d1").2.2⟩

/-! ### Retry-loop lemmas (claims C5, C6) -/

theorem retryLoop_attempts_le (f : Nat → Except String FileResult) :
    ∀ (rem a : Nat) (le : Option String), (retryLoop f a rem le).2.2 ≤ rem := by
  intro rem
  induction rem with
  | zero => intro a le; simp [retryLoop]
  | succ n ih =>
    intro a le
    simp only [retryLoop]
    cases f a with
    | ok r => simp
    | error msg =>
      dsimp only
      have h := ih (a + 1) (some msg)
      split
      · simpa using Nat.succ_le_succ h
      · calc (retryLoop f (a + 1) n (some msg)).2.2 + 1 ≤ n + 1 := Nat.succ_le_succ h

theorem retryLoop_delays_nil_of_ge (f : Nat → Except String FileResult) :
    ∀ (rem a : Nat) (le : Option String), maxRetries ≤ a →
      (retryLoop f a rem le).2.1 = [] := by
  intro rem
  induction rem with
  | zero => intro a le _; rfl
  | succ n ih =>
    intro a le ha
    simp only [retryLoop]
    cases f a with
    | ok r => rfl
    | error msg =>
      dsimp only
      rw [if_neg (by omega)]
      exact ih (a + 1) (some msg) (by omega)

theorem retryLoop_delays_len (f : Nat → Except String FileResult) :
    ∀ (rem a : Nat) (le : Option String), a + rem = maxRetries + 1 →
      (retryLoop f a rem le).2.1.length + 1 ≤ rem ∨ rem = 0 := by
  intro rem
  induction rem with
  | zero => intro a le _; right; rfl
  | succ n ih =>
    intro a le hrel
    left
    simp only [retryLoop]
    cases f a with
    | ok r => simp
    | error msg =>
      dsimp only
      split
      · next ha =>
        rcases ih (a + 1) (some msg) (by omega) with h | h
        · simpa using Nat.succ_le_succ h
        · subst h
          omega
      · next ha =>
        have h := retryLoop_delays_nil_of_ge f n (a + 1) (some msg) (by omega)
        rw [h]
        simp

theorem retryLoop_delays_shape (f : Nat → Except String FileResult) :
    ∀ (rem a : Nat) (le : Option String), 1 ≤ a →
      (retryLoop f a rem le).2.1
        = (List.range (retryLoop f a rem le).2.1.length).map
            (fun k => baseDelay * 2 ^ (a - 1 + k)) := by
  intro rem
  induction rem with
  | zero => intro a le _; rfl
  | succ n ih =>
    intro a le ha
    simp only [retryLoop]
    cases f a with
    | ok r => rfl
    | error msg =>
      dsimp only
      split
      · next hlt =>
        have hrest := ih (a + 1) (some msg) (by omega)
        dsimp only [List.length_cons]
        rw [List.range_succ_eq_map, List.map_cons, List.map_map]
        congr 1
        conv_lhs => rw [hrest]
        apply List.map_congr_left
        intro k hk
        simp only [Function.comp_apply]
        have hexp : a + 1 - 1 + k = a - 1 + Nat.succ k := by omega
        rw [hexp]
      · next hge =>
        have h := retryLoop_delays_nil_of_ge f n (a + 1) (some msg) (by omega)
        rw [h]
        rfl

theorem uploadFileWithRetry_all_fail (attempts : Nat → Except String FileResult)
    (msgs : Nat → String) (h : ∀ k, 1 ≤ k → k ≤ 5 → attempts k = .error (msgs k)) :
    uploadFileWithRetry attempts
      = (.error ("Upload failed after 5 attempts: " ++ msgs 5),
         [1000, 2000, 4000, 8000], 5) := by
  unfold uploadFileWithRetry
  simp only [retryLoop, maxRetries, baseDelay, h 1 (by omega) (by omega),
    h 2 (by omega) (by omega), h 3 (by omega) (by omega), h 4 (by omega) (by omega),
    h 5 (by omega) (by omega)]
  rfl

theorem handleUploadCommand_duplicate (active : Finset String) (cmd : ClientCommand)
    (now : Nat) (attempts : Nat → Except String FileResult) (d : String)
    (hd : cmd.downloadId = some d) (hmem : d ∈ active) :
    handleUploadCommand active cmd now attempts
      = { finalActive := active, duringActive := active, events := [],
          delays := [], attemptsMade := 0 } := by
  unfold handleUploadCommand
  by_cases hf : (falsyOpt cmd.downloadId || falsyOpt cmd.objectKey
      || falsyOpt cmd.presignedUrl) = true
  · rw [if_pos hf]
  · rw [if_neg hf]
    rw [hd, Option.getD_some, if_pos hmem]

theorem handleUploadCommand_run (active : Finset String) (cmd : ClientCommand)
    (now : Nat) (attempts : Nat → Except String FileResult) (d key : String)
    (hd : cmd.downloadId = some d) (hkey : cmd.objectKey = some key)
    (hf1 : falsyOpt cmd.downloadId = false) (hf2 : falsyOpt cmd.objectKey = false)
    (hf3 : falsyOpt cmd.presignedUrl = false) (hmem : d ∉ active)
    (hexp : cmdExpired cmd.expiresAt now = false) :
    handleUploadCommand active cmd now attempts
      = match uploadFileWithRetry attempts with
        | (.ok r, delays, n) =>
          { finalActive := (insert d active).erase d, duringActive := insert d active,
            events := [.complete d key r.size r.sha256 now], delays := delays,
            attemptsMade := n }
        | (.error msg, delays, n) =>
          { finalActive := (insert d active).erase d, duringActive := insert d active,
            events := [.failed d key msg now], delays := delays,
            attemptsMade := n } := by
  unfold handleUploadCommand
  rw [hf1, hf2, hf3]
  simp only [Bool.or_self, Bool.false_or]
  rw [if_neg Bool.false_ne_true]
  rw [hd, hkey, Option.getD_some, Option.getD_some, if_neg hmem, hexp]
  rw [if_neg Bool.false_ne_true]

/-- C5: a Command whose `transferId` is already in the agent's in-flight set
is discarded — no Event is emitted, no upload attempt is made, and the set
is unchanged; and on every call that passes the guards the `transferId` is
inserted into the in-flight set for the duration of the transfer and removed
on every exit path (upload success or failure alike), so the set never
retains the id after the call completes. -/
theorem agent_in_flight_guard (active : Finset String) (cmd : ClientCommand)
    (now : Nat) (attempts : Nat → Except String FileResult) (d : String)
    (hd : cmd.downloadId = some d) :
    (d ∈ active →
      (handleUploadCommand active cmd now attempts).events = [] ∧
      (handleUploadCommand active cmd now attempts).attemptsMade = 0 ∧
      (handleUploadCommand active cmd now attempts).finalActive = active) ∧
    (∀ key, cmd.objectKey = some key →
      falsyOpt cmd.downloadId = false → falsyOpt cmd.objectKey = false →
      falsyOpt cmd.presignedUrl = false → d ∉ active →
      cmdExpired cmd.expiresAt now = false →
      (handleUploadCommand active cmd now attempts).duringActive = insert d active ∧
      d ∉ (handleUploadCommand active cmd now attempts).finalActive ∧
      (handleUploadCommand active cmd now attempts).finalActive = active) := by
  constructor
  · intro hmem
    rw [handleUploadCommand_duplicate active cmd now attempts d hd hmem]
    exact ⟨rfl, rfl, rfl⟩
  · intro key hkey hf1 hf2 hf3 hmem hexp
    rw [handleUploadCommand_run active cmd now attempts d key hd hkey hf1 hf2 hf3
      hmem hexp]
    rcases uploadFileWithRetry attempts with ⟨res, delays, n⟩
    cases res with
    | ok r =>
      exact ⟨rfl, Finset.not_mem_erase d _, by rw [Finset.erase_insert hmem]⟩
    | error msg =>
      exact ⟨rfl, Finset.not_mem_erase d _, by rw [Finset.erase_insert hmem]⟩

/-- Witness for C5: a duplicate Command against an in-flight `"d1"` is
discarded, and a fresh Command acquires and releases `"d1"`. -/
theorem agent_in_flight_guard_witness :
    ((handleUploadCommand {"d1"} ⟨some "d1", some "k", some "u", some 500⟩ 100
        (fun _ => .ok ⟨7, "s"⟩)).events = [] ∧
     (handleUploadCommand {"d1"} ⟨some "d1", some "k", some "u", some 500⟩ 100
        (fun _ => .ok ⟨7, "s"⟩)).attemptsMade = 0 ∧
     (handleUploadCommand {"d1"} ⟨some "d1", some "k", some "u", some 500⟩ 100
        (fun _ => .ok ⟨7, "s"⟩)).finalActive = {"d1"}) ∧
    ((handleUploadCommand ∅ ⟨some "d1", some "k", some "u", some 500⟩ 100
        (fun _ => .ok ⟨7, "s"⟩)).duringActive = insert "d1" ∅ ∧
     "d1" ∉ (handleUploadCommand ∅ ⟨some "d1", some "k", some "u", some 500⟩ 100
        (fun _ => .ok ⟨7, "s"⟩)).finalActive ∧
     (handleUploadCommand ∅ ⟨some "d1", some "k", some "u", some 500⟩ 100
        (fun _ => .ok ⟨7, "s"⟩)).finalActive = ∅) :=
  ⟨(agent_in_flight_guard {"d1"} ⟨some "d1", some "k", some "u", some 500⟩ 100
      (fun _ => .ok ⟨7, "s"⟩) "d1" rfl).1 (by decide),
   (agent_in_flight_guard ∅ ⟨some "d1", some "k", some "u", some 500⟩ 100
      (fun _ => .ok ⟨7, "s"⟩) "d1" rfl).2 "k" rfl rfl rfl rfl (by decide) rfl⟩

/-- C6: the transfer retry makes at most 5 attempts; the backoff delays
form exactly the sequence `1000 * 2^k` milliseconds (1s, 2s, 4s, 8s — the
delay before attempt `k+1` is `1000 * 2^(k-1)`, none before attempt 1, at
most four delays); and when all 5 attempts fail, the overall result is a
single error whose message carries the last attempt's error message, and
`handleUploadCommand` emits exactly one `upload_failed` Event with that
message as its reason. -/
theorem retry_policy (attempts : Nat → Except String FileResult) :
    (uploadFileWithRetry attempts).2.2 ≤ 5 ∧
    (uploadFileWithRetry attempts).2.1.length ≤ 4 ∧
    (uploadFileWithRetry attempts).2.1
      = (List.range (uploadFileWithRetry attempts).2.1.length).map
          (fun k => 1000 * 2 ^ k) ∧
    (∀ msgs : Nat → String, (∀ k, 1 ≤ k → k ≤ 5 → attempts k = .error (msgs k)) →
      uploadFileWithRetry attempts
        = (.error ("Upload failed after 5 attempts: " ++ msgs 5),
           [1000, 2000, 4000, 8000], 5) ∧
      ∀ (active : Finset String) (cmd : ClientCommand) (now : Nat) (d key : String),
        cmd.downloadId = some d → cmd.objectKey = some key →
        falsyOpt cmd.downloadId = false → falsyOpt cmd.objectKey = false →
        falsyOpt cmd.presignedUrl = false → d ∉ active →
        cmdExpired cmd.expiresAt now = false →
        (handleUploadCommand active cmd now attempts).events
          = [.failed d key ("Upload failed after 5 attempts: " ++ msgs 5) now]) := by
  refine ⟨retryLoop_attempts_le attempts 5 1 none, ?_, ?_, ?_⟩
  · show (retryLoop attempts 1 5 none).2.1.length ≤ 4
    rcases retryLoop_delays_len attempts 5 1 none (by decide) with h | h
    · omega
    · omega
  · show (retryLoop attempts 1 5 none).2.1
      = (List.range (retryLoop attempts 1 5 none).2.1.length).map (fun k => 1000 * 2 ^ k)
    calc (retryLoop attempts 1 5 none).2.1
        = (List.range (retryLoop attempts 1 5 none).2.1.length).map
            (fun k => baseDelay * 2 ^ (1 - 1 + k)) :=
          retryLoop_delays_shape attempts 5 1 none (Nat.le_refl 1)
      _ = (List.range (retryLoop attempts 1 5 none).2.1.length).map
            (fun k => 1000 * 2 ^ k) := by
          apply List.map_congr_left
          intro k hk
          norm_num [baseDelay]
  · intro msgs hmsgs
    refine ⟨uploadFileWithRetry_all_fail attempts msgs hmsgs, ?_⟩
    intro active cmd now d key hd hkey hf1 hf2 hf3 hmem hexp
    rw [handleUploadCommand_run active cmd now attempts d key hd hkey hf1 hf2 hf3
      hmem hexp, uploadFileWithRetry_all_fail attempts msgs hmsgs]

/-- Witness for C6: with every attempt failing (`attempt k` throws `e<k>`),
the loop makes 5 attempts, sleeps 1s, 2s, 4s, 8s, and the agent emits
exactly one failed Event whose reason embeds the last error `e5`. -/
theorem retry_policy_witness :
    (uploadFileWithRetry (fun k => .error ("e" ++ toString k))).2.2 ≤ 5 ∧
    uploadFileWithRetry (fun k => .error ("e" ++ toString k))
      = (.error "Upload failed after 5 attempts: e5", [1000, 2000, 4000, 8000], 5) ∧
    (handleUploadCommand ∅ ⟨some "d1", some "k", some "u", some 500⟩ 100
        (fun k => .error ("e" ++ toString k))).events
      = [.failed "d1" "k" "Upload failed after 5 attempts: e5" 100] := by
  have h := retry_policy (fun k => .error ("e" ++ toString k))
  have h4 := h.2.2.2 (fun k => "e" ++ toString k) (fun k h1 h2 => rfl)
  exact ⟨h.1, h4.1,
    h4.2 ∅ ⟨some "d1", some "k", some "u", some 500⟩ 100 "d1" "k" rfl rfl rfl rfl rfl
      (by decide) rfl⟩
